import Mathlib

/-!
# Verification of the `armin` NLI4CT evaluator

Shallow embedding of `src/armin/evaluation.py` (class `NLI4CTEvaluator`).

Modelling conventions:
* A parsed JSON record (gold or results) becomes `Record`.  The JSON key
  `"Type"` becomes the field `rType`; `"Primary_evidence_index"` and
  `"Secondary_evidence_index"` keep their names.  The secondary key may be
  absent in a JSON object, hence `Option`.
* A parsed JSON file (mapping statement id to record) becomes an association
  list `List (String × Record)` in file order; JSON object keys are unique, and
  Python `dict` lookup is `List.lookup`.
* Python exceptions become `Except`: `dict[key]` on a missing key raises
  `KeyError`, integer/float division by zero raises `ZeroDivisionError`.
* Python floats are modelled as exact rationals `ℚ`; all the arithmetic the
  claims mention (ratios of small integer counts, the guards against zero
  denominators, the `[0, 1]` range) is exact.
* The filesystem is a function from a path to the parsed content of the file
  at that path, `none` when the path does not exist.
* `DatasetError` / `ResultsError` live in `armin/errors.py`, which is not part
  of the reviewed sources; modelled from the spec: error kinds carrying a
  human-readable cause string.
-/

/-- Errors surfaced by the embedded evaluator: the two declared error kinds
(`DatasetError`, `ResultsError`, modelled from the spec as carriers of a cause
string since `armin/errors.py` is not among the sources) and the two Python
built-in exception classes the code can hit (`KeyError` with the missing key,
`ZeroDivisionError`). -/
inductive ArminError where
  | keyError (key : String)
  | zeroDivisionError
  | datasetError (cause : String)
  | resultsError (cause : String)
deriving Repr, DecidableEq

/-- One per-statement record of a gold or results JSON file.  `rType` is the
JSON key `"Type"` (`"Single"` or `"Comparison"` in well-formed data, but the
code only ever compares it with `"Comparison"`).  `Secondary_evidence_index`
is `none` when the JSON object has no such key. -/
structure Record where
  rType : String
  Primary_evidence_index : List Int
  Secondary_evidence_index : Option (List Int)
deriving Repr, DecidableEq

/-- A parsed gold or results file: statement id to record, in file order. -/
abbrev StatementMap := List (String × Record)

namespace NLI4CT

/-- The body of the first inner `for j` loop of `__compare` (`evaluation.py`
lines 103-107) on the `(tp, fp, fn)` accumulator: `if results_ev[i][j] in
gold_ev[i]: tp += 1` followed by the complementary `if ... not in ...:
fp += 1`. -/
def tpfpStep (gi : List Int) (a : Nat × Nat × Nat) (v : Int) : Nat × Nat × Nat :=
  let a2 := if gi.contains v then (a.1 + 1, a.2.1, a.2.2) else a
  if ¬ gi.contains v then (a2.1, a2.2.1 + 1, a2.2.2) else a2

/-- The body of the second inner `for j` loop of `__compare` (`evaluation.py`
lines 108-110): `if gold_ev[i][j] not in results_ev[i]: fn += 1`. -/
def fnStep (ri : List Int) (a : Nat × Nat × Nat) (v : Int) : Nat × Nat × Nat :=
  if ¬ ri.contains v then (a.1, a.2.1, a.2.2 + 1) else a

/-- One row of `NLI4CTEvaluator.__compare`: the two inner `for j` loops of
`evaluation.py` lines 103-110 for a fixed `i`, threading the `(tp, fp, fn)`
accumulator.  The first loop walks `results_ev[i]` testing membership in
`gold_ev[i]`; the second walks `gold_ev[i]` testing absence from
`results_ev[i]`. -/
def compareRow (ri gi : List Int) (acc : Nat × Nat × Nat) : Nat × Nat × Nat :=
  gi.foldl (fnStep ri) (ri.foldl (tpfpStep gi) acc)

/-- The outer `for i in range(len(gold_ev))` loop of `__compare`
(`evaluation.py` lines 102-110), consuming the two parallel lists in lockstep.
Python stops when `i` reaches `len(gold_ev)` (extra `results_ev` rows are
ignored); the case of `gold_ev` longer than `results_ev` would raise
`IndexError` in Python but never occurs: `evaluate` always builds the two
lists with equal lengths. -/
def compareAux (acc : Nat × Nat × Nat) :
    List (List Int) → List (List Int) → Nat × Nat × Nat
  | ri :: rs, gi :: gs => compareAux (compareRow ri gi acc) rs gs
  | _, _ => acc

/-- The static method `NLI4CTEvaluator.__compare` (`evaluation.py` lines 97-112): returns the
`(tp, fp, fn)` triple pooled over all rows. -/
def compare (results_ev gold_ev : List (List Int)) : Nat × Nat × Nat :=
  compareAux (0, 0, 0) results_ev gold_ev

/-- The accumulation loop of `evaluate` (`evaluation.py` lines 61-71): for
every statement id of the results file, in file order, look up the gold record
(`self.gold[uuid]`, raising `KeyError` when absent), append the primary
evidence lists, and, when the gold record's `Type` is `"Comparison"`, also
append the secondary evidence lists (raising `KeyError` when either record
lacks the `Secondary_evidence_index` key, gold first as in the source).
Returns `(gold_p, results_p, gold_s, results_s)`. -/
def buildLists (gold : StatementMap) :
    StatementMap →
      Except ArminError
        (List (List Int) × List (List Int) × List (List Int) × List (List Int))
  | [] => .ok ([], [], [], [])
  | (uuid, r) :: rest =>
    match List.lookup uuid gold with
    | none => .error (.keyError uuid)
    | some g =>
      if g.rType = "Comparison" then
        match g.Secondary_evidence_index with
        | none => .error (.keyError "Secondary_evidence_index")
        | some gsec =>
          match r.Secondary_evidence_index with
          | none => .error (.keyError "Secondary_evidence_index")
          | some rsec =>
            match buildLists gold rest with
            | .error e => .error e
            | .ok (gp, rp, gs, rs) =>
              .ok (g.Primary_evidence_index :: gp, r.Primary_evidence_index :: rp,
                   gsec :: gs, rsec :: rs)
      else
        match buildLists gold rest with
        | .error e => .error e
        | .ok (gp, rp, gs, rs) =>
          .ok (g.Primary_evidence_index :: gp, r.Primary_evidence_index :: rp, gs, rs)

/-- The pooled counts of `evaluate` (`evaluation.py` lines 73-78): run
`__compare` on the primary pair of lists and on the secondary pair, and sum
the two triples elementwise into `(tp, fp, fn)`. -/
def evalCounts (gold results : StatementMap) : Except ArminError (Nat × Nat × Nat) :=
  match buildLists gold results with
  | .error e => .error e
  | .ok (gold_p, results_p, gold_s, results_s) =>
    let c_p := compare results_p gold_p
    let c_s := compare results_s gold_s
    .ok (c_p.1 + c_s.1, c_p.2.1 + c_s.2.1, c_p.2.2 + c_s.2.2)

/-- The record returned by `evaluate`: keys `"f1"`, `"precision"`,
`"recall"`.  Python floats are modelled as exact rationals. -/
structure EvalResult where
  f1 : ℚ
  precision : ℚ
  «recall» : ℚ
deriving Repr, DecidableEq

/-- The scoring part of `NLI4CTEvaluator.evaluate` (`evaluation.py` lines
80-95) on the already-loaded mappings: pooled counts, then
`p_score = tp / (tp + fp)` guarded by `(tp + fp) == 0`, then the unguarded
`r_score = tp / (tp + fn)` — Python raises `ZeroDivisionError` when
`tp + fn == 0` — then `score = 2 * (p_score * r_score) / (p_score + r_score)`
guarded by `(p_score + r_score) == 0`. -/
def evaluate (gold results : StatementMap) : Except ArminError EvalResult :=
  match evalCounts gold results with
  | .error e => .error e
  | .ok (tp, fp, fn) =>
    let p_score : ℚ := if tp + fp = 0 then 0 else (tp : ℚ) / ((tp : ℚ) + (fp : ℚ))
    if tp + fn = 0 then .error .zeroDivisionError
    else
      let r_score : ℚ := (tp : ℚ) / ((tp : ℚ) + (fn : ℚ))
      let score : ℚ :=
        if p_score + r_score = 0 then 0
        else 2 * (p_score * r_score) / (p_score + r_score)
      .ok { f1 := score, precision := p_score, «recall» := r_score }

end NLI4CT

/-- The evaluator object: `__init__` stores the parsed gold file in
`self.gold` and `evaluate` only ever reads it. -/
structure NLI4CTEvaluator where
  gold : StatementMap
deriving Repr, DecidableEq

/-- The constructor `NLI4CTEvaluator.__init__` (`evaluation.py` lines 37-43): `fs` is the
filesystem (path to parsed content, `none` when the path does not exist).  A
missing gold path raises `DatasetError` with the source's cause string and no
object is constructed; otherwise the parsed file becomes `self.gold`. -/
def NLI4CTEvaluator.init (fs : String → Option StatementMap) (gold_path : String) :
    Except ArminError NLI4CTEvaluator :=
  match fs gold_path with
  | none => .error (.datasetError ("Dataset file " ++ gold_path ++ " does not exist"))
  | some g => .ok { gold := g }

/-- The method `NLI4CTEvaluator.evaluate` (`evaluation.py` lines 45-95) at the file
level, with the method's object state threaded explicitly: a missing results
path raises `ResultsError`; otherwise the parsed results are scored against
`self.gold`.  The returned evaluator is the state of the object after the
call — the method never assigns to `self.gold`, which the explicit threading
records. -/
def NLI4CTEvaluator.evaluateFile (ev : NLI4CTEvaluator)
    (fs : String → Option StatementMap) (results_path : String) :
    Except ArminError NLI4CT.EvalResult × NLI4CTEvaluator :=
  match fs results_path with
  | none =>
    (.error (.resultsError ("Results file " ++ results_path ++ " does not exist")), ev)
  | some results => (NLI4CT.evaluate ev.gold results, ev)

deriving instance DecidableEq for Except

/-- Two evidence lists contain exactly the same values (each is membership-wise
included in the other) — the spec's "every predicted index is also a gold
index and every gold index is also a predicted index" for one statement and
one category. -/
def MutualMem (a b : List Int) : Prop := (∀ v ∈ a, v ∈ b) ∧ (∀ v ∈ b, v ∈ a)

/-- One results entry is an exact match in the spec's sense: its statement id
has a gold record, the predicted and gold primary evidence lists contain the
same values, and, when the gold record's `Type` is `"Comparison"`, both
records carry secondary evidence lists containing the same values. -/
def ExactEntry (gold : StatementMap) (p : String × Record) : Prop :=
  ∃ g, List.lookup p.1 gold = some g ∧
    MutualMem p.2.Primary_evidence_index g.Primary_evidence_index ∧
    (g.rType = "Comparison" →
      ∃ rsec gsec, p.2.Secondary_evidence_index = some rsec ∧
        g.Secondary_evidence_index = some gsec ∧ MutualMem rsec gsec)

lemma foldl_tpfpStep (gi : List Int) :
    ∀ (l : List Int) (a : Nat × Nat × Nat),
      l.foldl (NLI4CT.tpfpStep gi) a =
        (a.1 + l.countP (fun v => gi.contains v),
         a.2.1 + l.countP (fun v => ! gi.contains v),
         a.2.2) := by
  intro l
  induction l with
  | nil => intro a; simp
  | cons v t ih =>
    intro a
    rw [List.foldl_cons, ih]
    by_cases h : v ∈ gi <;>
      simp [NLI4CT.tpfpStep, h, List.countP_cons, Prod.mk.injEq] <;> omega

lemma foldl_fnStep (ri : List Int) :
    ∀ (l : List Int) (a : Nat × Nat × Nat),
      l.foldl (NLI4CT.fnStep ri) a =
        (a.1, a.2.1, a.2.2 + l.countP (fun v => ! ri.contains v)) := by
  intro l
  induction l with
  | nil => intro a; simp
  | cons v t ih =>
    intro a
    rw [List.foldl_cons, ih]
    by_cases h : v ∈ ri <;>
      simp [NLI4CT.fnStep, h, List.countP_cons, Prod.mk.injEq] <;> try omega

lemma compareRow_eq (ri gi : List Int) (acc : Nat × Nat × Nat) :
    NLI4CT.compareRow ri gi acc =
      (acc.1 + ri.countP (fun v => gi.contains v),
       acc.2.1 + ri.countP (fun v => ! gi.contains v),
       acc.2.2 + gi.countP (fun v => ! ri.contains v)) := by
  rw [NLI4CT.compareRow, foldl_tpfpStep, foldl_fnStep]

lemma compareAux_eq (R : List (List Int)) :
    ∀ (G : List (List Int)) (acc : Nat × Nat × Nat),
      NLI4CT.compareAux acc R G =
        (acc.1 + (NLI4CT.compare R G).1,
         acc.2.1 + (NLI4CT.compare R G).2.1,
         acc.2.2 + (NLI4CT.compare R G).2.2) := by
  induction R with
  | nil => intro G acc; cases G <;> simp [NLI4CT.compareAux, NLI4CT.compare]
  | cons ri rs ih =>
    intro G acc
    cases G with
    | nil => simp [NLI4CT.compareAux, NLI4CT.compare]
    | cons gi gs =>
      simp only [NLI4CT.compare, NLI4CT.compareAux]
      rw [ih gs (NLI4CT.compareRow ri gi acc), ih gs (NLI4CT.compareRow ri gi (0, 0, 0))]
      simp [compareRow_eq, Prod.mk.injEq]
      omega

lemma compare_cons (ri gi : List Int) (rs gs : List (List Int)) :
    NLI4CT.compare (ri :: rs) (gi :: gs) =
      ((NLI4CT.compare rs gs).1 + ri.countP (fun v => gi.contains v),
       (NLI4CT.compare rs gs).2.1 + ri.countP (fun v => ! gi.contains v),
       (NLI4CT.compare rs gs).2.2 + gi.countP (fun v => ! ri.contains v)) := by
  show NLI4CT.compareAux (0, 0, 0) (ri :: rs) (gi :: gs) = _
  simp only [NLI4CT.compareAux]
  rw [compareAux_eq, compareRow_eq]
  simp [Prod.mk.injEq]
  omega

lemma countP_add_countP_neg (p : Int → Bool) (l : List Int) :
    l.countP p + l.countP (fun a => ! p a) = l.length := by
  induction l with
  | nil => simp
  | cons v t ih => by_cases h : p v = true <;> simp [List.countP_cons, h] <;> omega

lemma compare_eq_sums :
    ∀ (R G : List (List Int)), R.length = G.length →
      NLI4CT.compare R G =
        (((R.zip G).map (fun pr => pr.1.countP (fun v => pr.2.contains v))).sum,
         ((R.zip G).map (fun pr => pr.1.countP (fun v => ! pr.2.contains v))).sum,
         ((G.zip R).map (fun pr => pr.1.countP (fun v => ! pr.2.contains v))).sum) := by
  intro R
  induction R with
  | nil =>
    intro G h
    cases G with
    | nil => simp [NLI4CT.compare, NLI4CT.compareAux]
    | cons gi gs => simp at h
  | cons ri rs ih =>
    intro G h
    cases G with
    | nil => simp at h
    | cons gi gs =>
      have hlen : rs.length = gs.length := by simpa using h
      rw [compare_cons, ih gs hlen]
      simp [Prod.mk.injEq]
      constructor
      · omega
      constructor
      · omega
      · omega

lemma compare_tp_add_fp :
    ∀ (R G : List (List Int)), R.length = G.length →
      (NLI4CT.compare R G).1 + (NLI4CT.compare R G).2.1 = (R.map List.length).sum := by
  intro R
  induction R with
  | nil =>
    intro G h
    cases G with
    | nil => simp [NLI4CT.compare, NLI4CT.compareAux]
    | cons gi gs => simp at h
  | cons ri rs ih =>
    intro G h
    cases G with
    | nil => simp at h
    | cons gi gs =>
      have hlen : rs.length = gs.length := by simpa using h
      have hc := countP_add_countP_neg (fun v => gi.contains v) ri
      rw [compare_cons]
      simp only [List.map_cons, List.sum_cons]
      have := ih gs hlen
      simp at hc ⊢
      omega

lemma compare_exact_rows :
    ∀ (R G : List (List Int)), R.length = G.length →
      (∀ pr ∈ R.zip G, MutualMem pr.1 pr.2) →
      NLI4CT.compare R G = ((R.map List.length).sum, 0, 0) := by
  intro R
  induction R with
  | nil =>
    intro G h _
    cases G with
    | nil => simp [NLI4CT.compare, NLI4CT.compareAux]
    | cons gi gs => simp at h
  | cons ri rs ih =>
    intro G h hmut
    cases G with
    | nil => simp at h
    | cons gi gs =>
      have hlen : rs.length = gs.length := by simpa using h
      have hm : MutualMem ri gi := hmut (ri, gi) (by simp)
      have hrest : ∀ pr ∈ rs.zip gs, MutualMem pr.1 pr.2 := by
        intro pr hpr
        exact hmut pr (by simp [hpr])
      have h1 : ri.countP (fun v => gi.contains v) = ri.length :=
        List.countP_eq_length.mpr (fun a ha => by simp [hm.1 a ha])
      have h2 : ri.countP (fun v => ! gi.contains v) = 0 :=
        List.countP_eq_zero.mpr (fun a ha => by simp [hm.1 a ha])
      have h3 : gi.countP (fun v => ! ri.contains v) = 0 :=
        List.countP_eq_zero.mpr (fun a ha => by simp [hm.2 a ha])
      rw [compare_cons, ih gs hlen hrest, h1, h2, h3]
      simp [Nat.add_comm]

lemma buildLists_error_keyError (gold : StatementMap) :
    ∀ (rs : StatementMap) (e : ArminError),
      NLI4CT.buildLists gold rs = .error e → ∃ k, e = ArminError.keyError k := by
  intro rs
  induction rs with
  | nil => intro e he; simp [NLI4CT.buildLists] at he
  | cons p rest ih =>
    intro e he
    obtain ⟨uuid, r⟩ := p
    simp only [NLI4CT.buildLists] at he
    split at he
    · simp at he
      exact ⟨uuid, he.symm⟩
    · split at he
      · split at he
        · simp at he
          exact ⟨"Secondary_evidence_index", he.symm⟩
        · split at he
          · simp at he
            exact ⟨"Secondary_evidence_index", he.symm⟩
          · split at he
            · rename_i eb hb
              simp at he
              obtain ⟨k, hk⟩ := ih eb hb
              exact ⟨k, by rw [← he, hk]⟩
            · simp at he
      · split at he
        · rename_i eb hb
          simp at he
          obtain ⟨k, hk⟩ := ih eb hb
          exact ⟨k, by rw [← he, hk]⟩
        · simp at he

lemma buildLists_cons_error (gold : StatementMap) (p : String × Record)
    (rest : StatementMap) (e : ArminError)
    (h : NLI4CT.buildLists gold rest = .error e) :
    ∃ e2, NLI4CT.buildLists gold (p :: rest) = .error e2 ∧
      (e2 = e ∨ ∃ k, e2 = ArminError.keyError k) := by
  obtain ⟨uuid, r⟩ := p
  cases hl : List.lookup uuid gold with
  | none =>
    exact ⟨.keyError uuid, by simp [NLI4CT.buildLists, hl], .inr ⟨uuid, rfl⟩⟩
  | some g =>
    by_cases hc : g.rType = "Comparison"
    · cases hgs : g.Secondary_evidence_index with
      | none =>
        exact ⟨.keyError "Secondary_evidence_index",
          by simp [NLI4CT.buildLists, hl, hc, hgs], .inr ⟨_, rfl⟩⟩
      | some gsec =>
        cases hrs : r.Secondary_evidence_index with
        | none =>
          exact ⟨.keyError "Secondary_evidence_index",
            by simp [NLI4CT.buildLists, hl, hc, hgs, hrs], .inr ⟨_, rfl⟩⟩
        | some rsec =>
          exact ⟨e, by simp [NLI4CT.buildLists, hl, hc, hgs, hrs, h], .inl rfl⟩
    · exact ⟨e, by simp [NLI4CT.buildLists, hl, hc, h], .inl rfl⟩

lemma buildLists_missing_key (gold : StatementMap) :
    ∀ (rs : StatementMap) (uuid : String) (r : Record),
      (uuid, r) ∈ rs → List.lookup uuid gold = none →
      ∃ k, NLI4CT.buildLists gold rs = .error (ArminError.keyError k) := by
  intro rs
  induction rs with
  | nil => intro uuid r hmem _; simp at hmem
  | cons p rest ih =>
    intro uuid r hmem hnone
    rcases List.mem_cons.mp hmem with heq | htail
    · obtain ⟨u2, r2⟩ := p
      obtain ⟨hu, hr⟩ := Prod.mk.injEq .. ▸ heq
      subst hu
      exact ⟨uuid, by simp [NLI4CT.buildLists, hnone]⟩
    · obtain ⟨k, hk⟩ := ih uuid r htail hnone
      obtain ⟨e2, he2, hor⟩ := buildLists_cons_error gold p rest _ hk
      rcases hor with rfl | ⟨k2, rfl⟩
      · exact ⟨k, he2⟩
      · exact ⟨k2, he2⟩

lemma buildLists_missing_secondary (gold : StatementMap) :
    ∀ (rs : StatementMap) (uuid : String) (r g : Record),
      (uuid, r) ∈ rs → List.lookup uuid gold = some g → g.rType = "Comparison" →
      (g.Secondary_evidence_index = none ∨ r.Secondary_evidence_index = none) →
      ∃ k, NLI4CT.buildLists gold rs = .error (ArminError.keyError k) := by
  intro rs
  induction rs with
  | nil => intro uuid r g hmem _ _ _; simp at hmem
  | cons p rest ih =>
    intro uuid r g hmem hg hc hmissing
    rcases List.mem_cons.mp hmem with heq | htail
    · obtain ⟨u2, r2⟩ := p
      obtain ⟨hu, hr⟩ := Prod.mk.injEq .. ▸ heq
      subst hu
      subst hr
      cases hgs : g.Secondary_evidence_index with
      | none =>
        exact ⟨"Secondary_evidence_index", by simp [NLI4CT.buildLists, hg, hc, hgs]⟩
      | some gsec =>
        have hrs : r.Secondary_evidence_index = none := by
          rcases hmissing with h1 | h1
          · rw [h1] at hgs; cases hgs
          · exact h1
        exact ⟨"Secondary_evidence_index",
          by simp [NLI4CT.buildLists, hg, hc, hgs, hrs]⟩
    · obtain ⟨k, hk⟩ := ih uuid r g htail hg hc hmissing
      obtain ⟨e2, he2, hor⟩ := buildLists_cons_error gold p rest _ hk
      rcases hor with rfl | ⟨k2, rfl⟩
      · exact ⟨k, he2⟩
      · exact ⟨k2, he2⟩

lemma evalCounts_of_buildLists_error (gold results : StatementMap) (e : ArminError)
    (h : NLI4CT.buildLists gold results = .error e) :
    NLI4CT.evalCounts gold results = .error e := by
  simp [NLI4CT.evalCounts, h]

lemma evaluate_of_evalCounts_error (gold results : StatementMap) (e : ArminError)
    (h : NLI4CT.evalCounts gold results = .error e) :
    NLI4CT.evaluate gold results = .error e := by
  simp [NLI4CT.evaluate, h]

lemma evaluate_zero_denominator (gold results : StatementMap) (tp fp fn : ℕ)
    (h : NLI4CT.evalCounts gold results = .ok (tp, fp, fn)) (hz : tp + fn = 0) :
    NLI4CT.evaluate gold results = .error .zeroDivisionError := by
  simp [NLI4CT.evaluate, h, hz]

lemma evaluate_ok_form (gold results : StatementMap) (tp fp fn : ℕ)
    (h : NLI4CT.evalCounts gold results = .ok (tp, fp, fn)) (hz : tp + fn ≠ 0) :
    NLI4CT.evaluate gold results =
      .ok { f1 := if (if tp + fp = 0 then (0:ℚ) else (tp : ℚ) / ((tp : ℚ) + (fp : ℚ)))
                      + (tp : ℚ) / ((tp : ℚ) + (fn : ℚ)) = 0 then (0:ℚ)
                  else 2 * ((if tp + fp = 0 then (0:ℚ) else (tp : ℚ) / ((tp : ℚ) + (fp : ℚ)))
                      * ((tp : ℚ) / ((tp : ℚ) + (fn : ℚ))))
                    / ((if tp + fp = 0 then (0:ℚ) else (tp : ℚ) / ((tp : ℚ) + (fp : ℚ)))
                      + (tp : ℚ) / ((tp : ℚ) + (fn : ℚ))),
            precision := if tp + fp = 0 then (0:ℚ) else (tp : ℚ) / ((tp : ℚ) + (fp : ℚ)),
            «recall» := (tp : ℚ) / ((tp : ℚ) + (fn : ℚ)) } := by
  simp [NLI4CT.evaluate, h, hz]

lemma div_add_bounds (tp m : ℕ) (h : tp + m ≠ 0) :
    0 ≤ (tp : ℚ) / ((tp : ℚ) + (m : ℚ)) ∧ (tp : ℚ) / ((tp : ℚ) + (m : ℚ)) ≤ 1 := by
  have hpos : (0 : ℚ) < (tp : ℚ) + (m : ℚ) := by
    have h1 : 0 < tp + m := Nat.pos_of_ne_zero h
    exact_mod_cast h1
  constructor
  · exact div_nonneg (by positivity) hpos.le
  · rw [div_le_one hpos]
    have : (0 : ℚ) ≤ (m : ℚ) := Nat.cast_nonneg m
    linarith

lemma f1_formula_bounds (p r : ℚ) (hp0 : 0 ≤ p) (hp1 : p ≤ 1) (hr0 : 0 ≤ r) (hr1 : r ≤ 1) :
    0 ≤ (if p + r = 0 then (0:ℚ) else 2 * (p * r) / (p + r)) ∧
      (if p + r = 0 then (0:ℚ) else 2 * (p * r) / (p + r)) ≤ 1 := by
  by_cases h : p + r = 0
  · simp [h]
  · have hpos : 0 < p + r := lt_of_le_of_ne (by linarith) (Ne.symm h)
    rw [if_neg h]
    constructor
    · exact div_nonneg (by positivity) hpos.le
    · rw [div_le_one hpos]
      nlinarith [mul_nonneg (sub_nonneg.mpr hp1) hr0, mul_nonneg (sub_nonneg.mpr hr1) hp0]

lemma buildLists_exact (gold : StatementMap) :
    ∀ (results : StatementMap), (∀ p ∈ results, ExactEntry gold p) →
      ∃ GP RP GS RS,
        NLI4CT.buildLists gold results = .ok (GP, RP, GS, RS) ∧
        RP.length = GP.length ∧ RS.length = GS.length ∧
        (∀ pr ∈ RP.zip GP, MutualMem pr.1 pr.2) ∧
        (∀ pr ∈ RS.zip GS, MutualMem pr.1 pr.2) ∧
        RP = results.map (fun p => p.2.Primary_evidence_index) ∧
        (∀ p ∈ results, ∀ g2, List.lookup p.1 gold = some g2 →
          g2.rType = "Comparison" →
          ∀ rsec2, p.2.Secondary_evidence_index = some rsec2 → rsec2 ∈ RS) := by
  intro results
  induction results with
  | nil =>
    intro _
    exact ⟨[], [], [], [], rfl, rfl, rfl, by simp, by simp, rfl, by simp⟩
  | cons p rest ih =>
    intro H
    obtain ⟨uuid, r⟩ := p
    obtain ⟨g, hg0, hprim0, hsec⟩ := H (uuid, r) (by simp)
    have hg : List.lookup uuid gold = some g := hg0
    have hprim : MutualMem r.Primary_evidence_index g.Primary_evidence_index := hprim0
    obtain ⟨GP, RP, GS, RS, hb, hl1, hl2, hz1, hz2, hmap, hsmem⟩ :=
      ih (fun q hq => H q (by simp [hq]))
    by_cases hc : g.rType = "Comparison"
    · obtain ⟨rsec, gsec, hrs0, hgs, hmm⟩ := hsec hc
      have hrs : r.Secondary_evidence_index = some rsec := hrs0
      refine ⟨g.Primary_evidence_index :: GP, r.Primary_evidence_index :: RP,
        gsec :: GS, rsec :: RS,
        by simp [NLI4CT.buildLists, hg, hc, hgs, hrs, hb],
        by simp [hl1], by simp [hl2], ?_, ?_, by simp [hmap], ?_⟩
      · intro pr hpr
        rw [List.zip_cons_cons] at hpr
        rcases List.mem_cons.mp hpr with heq | htail
        · rw [heq]; exact hprim
        · exact hz1 pr htail
      · intro pr hpr
        rw [List.zip_cons_cons] at hpr
        rcases List.mem_cons.mp hpr with heq | htail
        · rw [heq]; exact hmm
        · exact hz2 pr htail
      · intro q hq g2 hg2 hc2 rsec2 hrs2
        rcases List.mem_cons.mp hq with heq | htail
        · subst heq
          have hrs2a : r.Secondary_evidence_index = some rsec2 := hrs2
          rw [hrs] at hrs2a
          rw [← Option.some.inj hrs2a]
          exact List.mem_cons_self rsec RS
        · exact List.mem_cons_of_mem rsec (hsmem q htail g2 hg2 hc2 rsec2 hrs2)
    · refine ⟨g.Primary_evidence_index :: GP, r.Primary_evidence_index :: RP, GS, RS,
        by simp [NLI4CT.buildLists, hg, hc, hb],
        by simp [hl1], hl2, ?_, hz2, by simp [hmap], ?_⟩
      · intro pr hpr
        rw [List.zip_cons_cons] at hpr
        rcases List.mem_cons.mp hpr with heq | htail
        · rw [heq]; exact hprim
        · exact hz1 pr htail
      · intro q hq g2 hg2 hc2 rsec2 hrs2
        rcases List.mem_cons.mp hq with heq | htail
        · subst heq
          have hg2a : List.lookup uuid gold = some g2 := hg2
          rw [hg] at hg2a
          have hgg : g = g2 := Option.some.inj hg2a
          exact absurd (hgg ▸ hc2) hc
        · exact hsmem q htail g2 hg2 hc2 rsec2 hrs2

/-- C3: when the pooled counts have `(tp + fn) = 0`, computing recall fails
with the `ZeroDivisionError` class (no default is returned); when
`(tp + fn) > 0`, the evaluation succeeds and the returned recall is
`tp / (tp + fn)`. -/
theorem recall_division_behavior (gold results : StatementMap) (tp fp fn : ℕ)
    (h : NLI4CT.evalCounts gold results = .ok (tp, fp, fn)) :
    (tp + fn = 0 → NLI4CT.evaluate gold results = .error .zeroDivisionError) ∧
    (tp + fn ≠ 0 → ∃ res, NLI4CT.evaluate gold results = .ok res ∧
      res.«recall» = (tp : ℚ) / ((tp : ℚ) + (fn : ℚ))) := by
  constructor
  · intro hz
    exact evaluate_zero_denominator gold results tp fp fn h hz
  · intro hz
    exact ⟨_, evaluate_ok_form gold results tp fp fn h hz, rfl⟩

/-- Witness for C3 at a concrete input: one statement whose gold and predicted
evidence lists are both empty pools `(tp, fp, fn) = (0, 0, 0)`, and evaluation
fails with `ZeroDivisionError`. -/
theorem recall_division_behavior_witness :
    ((0 : ℕ) + 0 = 0 →
      NLI4CT.evaluate [("a", ⟨"Single", [], none⟩)] [("a", ⟨"Single", [], none⟩)] =
        .error .zeroDivisionError) ∧
    ((0 : ℕ) + 0 ≠ 0 →
      ∃ res, NLI4CT.evaluate [("a", ⟨"Single", [], none⟩)] [("a", ⟨"Single", [], none⟩)] =
        .ok res ∧ res.«recall» = ((0 : ℕ) : ℚ) / (((0 : ℕ) : ℚ) + ((0 : ℕ) : ℚ))) :=
  recall_division_behavior [("a", ⟨"Single", [], none⟩)] [("a", ⟨"Single", [], none⟩)]
    0 0 0 rfl

/-- C4 counterexample: with a gold mapping holding one statement with two gold
primary indices and an empty results mapping, the pooled counts are
`(0, 0, 0)` — so `fn` is `0`, not the total number of gold indices (2) — and
`evaluate` raises `ZeroDivisionError` instead of returning
`recall = 0, f1 = 0`. -/
theorem empty_results_claim_counterexample :
    NLI4CT.evalCounts [("s1", ⟨"Single", [0, 1], none⟩)] [] = .ok (0, 0, 0) ∧
    NLI4CT.evaluate [("s1", ⟨"Single", [0, 1], none⟩)] [] = .error .zeroDivisionError := by
  constructor
  · rfl
  · rfl

/-- C4 amended: for every gold mapping, evaluating an empty results mapping
pools `tp = fp = fn = 0` (statements absent from the results contribute
nothing, so `fn` is `0` rather than the total number of gold indices) and
`evaluate` then fails with a `ZeroDivisionError`-class error when computing
recall instead of returning a record. -/
theorem evaluate_empty_results (gold : StatementMap) :
    NLI4CT.evalCounts gold [] = .ok (0, 0, 0) ∧
    NLI4CT.evaluate gold [] = .error .zeroDivisionError := by
  have h : NLI4CT.evalCounts gold [] = .ok (0, 0, 0) := rfl
  exact ⟨h, evaluate_zero_denominator gold [] 0 0 0 h rfl⟩

/-- C6: a statement whose gold record has `Type = "Single"` contributes
nothing to the secondary lists, even when a `Secondary_evidence_index` key is
present in the gold record or the results record (`r` here is arbitrary, and
`g.Secondary_evidence_index` is unconstrained). -/
theorem single_type_no_secondary (gold : StatementMap) (uuid : String) (g r : Record)
    (rest : StatementMap) (GP RP GS RS : List (List Int))
    (hg : List.lookup uuid gold = some g) (ht : g.rType = "Single")
    (hrest : NLI4CT.buildLists gold rest = .ok (GP, RP, GS, RS)) :
    NLI4CT.buildLists gold ((uuid, r) :: rest) =
      .ok (g.Primary_evidence_index :: GP, r.Primary_evidence_index :: RP, GS, RS) := by
  have hc : ¬ g.rType = "Comparison" := by rw [ht]; decide
  simp [NLI4CT.buildLists, hg, hc, hrest]

/-- Witness for C6 at a concrete input where both records carry a
`Secondary_evidence_index` key that must be ignored. -/
theorem single_type_no_secondary_witness :
    NLI4CT.buildLists [("a", ⟨"Single", [0], some [5]⟩)]
        [("a", ⟨"Single", [1], some [6]⟩)] =
      .ok ([[0]], [[1]], [], []) :=
  single_type_no_secondary [("a", ⟨"Single", [0], some [5]⟩)] "a"
    ⟨"Single", [0], some [5]⟩ ⟨"Single", [1], some [6]⟩ [] [] [] [] [] rfl rfl rfl

/-- C7: a results statement id absent from the gold mapping makes `evaluate`
fail with a `KeyError`-class error (there is no existence check guarding the
gold lookup). -/
theorem missing_gold_key_keyError (gold results : StatementMap) (uuid : String)
    (r : Record) (hmem : (uuid, r) ∈ results)
    (hnone : List.lookup uuid gold = none) :
    ∃ k, NLI4CT.evaluate gold results = .error (ArminError.keyError k) := by
  obtain ⟨k, hk⟩ := buildLists_missing_key gold results uuid r hmem hnone
  exact ⟨k, evaluate_of_evalCounts_error _ _ _ (evalCounts_of_buildLists_error _ _ _ hk)⟩

/-- Witness for C7: an empty gold mapping and a results mapping with one id. -/
theorem missing_gold_key_keyError_witness :
    ∃ k, NLI4CT.evaluate [] [("a", ⟨"Single", [0], none⟩)] =
      .error (ArminError.keyError k) :=
  missing_gold_key_keyError [] [("a", ⟨"Single", [0], none⟩)] "a"
    ⟨"Single", [0], none⟩ (by simp) rfl

/-- C8: constructing the evaluator with a nonexistent gold path raises
`DatasetError` (no object is constructed), and calling `evaluate` with a
nonexistent results path raises `ResultsError` while the evaluator state is
returned unchanged. -/
theorem missing_path_errors (fs_gold fs_results : String → Option StatementMap)
    (gold_path results_path : String) (ev : NLI4CTEvaluator)
    (h1 : fs_gold gold_path = none) (h2 : fs_results results_path = none) :
    NLI4CTEvaluator.init fs_gold gold_path =
      .error (.datasetError ("Dataset file " ++ gold_path ++ " does not exist")) ∧
    ev.evaluateFile fs_results results_path =
      (.error (.resultsError ("Results file " ++ results_path ++ " does not exist")), ev) := by
  constructor
  · simp [NLI4CTEvaluator.init, h1]
  · simp [NLI4CTEvaluator.evaluateFile, h2]

/-- Witness for C8: an empty filesystem, concrete paths, and a concrete
evaluator whose state is returned unchanged. -/
theorem missing_path_errors_witness :
    NLI4CTEvaluator.init (fun _ => none) "gold.json" =
      .error (.datasetError ("Dataset file " ++ "gold.json" ++ " does not exist")) ∧
    NLI4CTEvaluator.evaluateFile ⟨[]⟩ (fun _ => none) "results.json" =
      (.error (.resultsError ("Results file " ++ "results.json" ++ " does not exist")), ⟨[]⟩) :=
  missing_path_errors (fun _ => none) (fun _ => none) "gold.json" "results.json" ⟨[]⟩ rfl rfl

/-- C9: `evaluate` is a pure, deterministic function of the stored gold
mapping and the results file: a call leaves the evaluator state unchanged,
and a second call on that state returns the identical result and state. -/
theorem evaluate_deterministic_pure (ev : NLI4CTEvaluator)
    (fs : String → Option StatementMap) (results_path : String) :
    (ev.evaluateFile fs results_path).2 = ev ∧
    ((ev.evaluateFile fs results_path).2).evaluateFile fs results_path =
      ev.evaluateFile fs results_path := by
  have h : (ev.evaluateFile fs results_path).2 = ev := by
    cases hf : fs results_path <;> simp [NLI4CTEvaluator.evaluateFile, hf]
  exact ⟨h, by rw [h]⟩

/-- C10: a gold record of `Type = "Comparison"` makes the
`Secondary_evidence_index` key mandatory in both files: when either record
lacks it, `evaluate` fails with a `KeyError`-class error. -/
theorem comparison_requires_secondary_key (gold results : StatementMap)
    (uuid : String) (r g : Record) (hmem : (uuid, r) ∈ results)
    (hg : List.lookup uuid gold = some g) (hc : g.rType = "Comparison")
    (hmissing : g.Secondary_evidence_index = none ∨ r.Secondary_evidence_index = none) :
    ∃ k, NLI4CT.evaluate gold results = .error (ArminError.keyError k) := by
  obtain ⟨k, hk⟩ := buildLists_missing_secondary gold results uuid r g hmem hg hc hmissing
  exact ⟨k, evaluate_of_evalCounts_error _ _ _ (evalCounts_of_buildLists_error _ _ _ hk)⟩

/-- Witness for C10: a Comparison-type gold record with secondary evidence,
and a results record lacking the `Secondary_evidence_index` key. -/
theorem comparison_requires_secondary_key_witness :
    ∃ k, NLI4CT.evaluate [("a", ⟨"Comparison", [1], some [2]⟩)]
        [("a", ⟨"Comparison", [1], none⟩)] = .error (ArminError.keyError k) :=
  comparison_requires_secondary_key [("a", ⟨"Comparison", [1], some [2]⟩)]
    [("a", ⟨"Comparison", [1], none⟩)] "a" ⟨"Comparison", [1], none⟩
    ⟨"Comparison", [1], some [2]⟩ (by simp) rfl rfl (Or.inr rfl)

/-- C2: `__compare` on equal-length list pairs counts per occurrence on the
predicted side — `tp` is the number of occurrences of values of
`predicted[i]` present in `gold[i]` (duplicates each counted), `fp` the
number of occurrences absent from `gold[i]`, and the two are complementary
(`tp + fp` equals the total number of predicted occurrences, so no occurrence
counts in both); `fn` counts the occurrences in `gold[i]` of values absent
from `predicted[i]`. -/
theorem compare_occurrence_counting (R G : List (List Int)) (h : R.length = G.length) :
    NLI4CT.compare R G =
      (((R.zip G).map (fun pr => pr.1.countP (fun v => pr.2.contains v))).sum,
       ((R.zip G).map (fun pr => pr.1.countP (fun v => ! pr.2.contains v))).sum,
       ((G.zip R).map (fun pr => pr.1.countP (fun v => ! pr.2.contains v))).sum) ∧
    (NLI4CT.compare R G).1 + (NLI4CT.compare R G).2.1 = (R.map List.length).sum :=
  ⟨compare_eq_sums R G h, compare_tp_add_fp R G h⟩

/-- Witness for C2 at a concrete input with a duplicated correct prediction:
`predicted = [[1, 1, 2], [5]]`, `gold = [[1, 3], [5]]` gives `tp = 3`
(the duplicate `1` counts twice), `fp = 1`, `fn = 1`. -/
theorem compare_occurrence_counting_witness :
    NLI4CT.compare [[1, 1, 2], [5]] [[1, 3], [5]] =
      ((([[1, 1, 2], [5]].zip [[1, 3], [5]]).map
          (fun pr => pr.1.countP (fun v => pr.2.contains v))).sum,
       (([[1, 1, 2], [5]].zip [[1, 3], [5]]).map
          (fun pr => pr.1.countP (fun v => ! pr.2.contains v))).sum,
       (([[1, 3], [5]].zip [[1, 1, 2], [5]]).map
          (fun pr => pr.1.countP (fun v => ! pr.2.contains v))).sum) ∧
    (NLI4CT.compare [[1, 1, 2], [5]] [[1, 3], [5]]).1 +
        (NLI4CT.compare [[1, 1, 2], [5]] [[1, 3], [5]]).2.1 =
      ([[1, 1, 2], [5]].map List.length).sum :=
  compare_occurrence_counting [[1, 1, 2], [5]] [[1, 3], [5]] rfl

/-- C1: every evaluation that returns a record (no exception) returns
`precision = tp / (tp + fp)` guarded by `(tp + fp) = 0`, `f1` computed by the
guarded harmonic-mean formula from the returned precision and recall, and all
three fields `f1`, `precision`, `recall` lie in `[0, 1]`. -/
theorem evaluate_ok_metrics (gold results : StatementMap) (res : NLI4CT.EvalResult)
    (h : NLI4CT.evaluate gold results = .ok res) :
    ∃ tp fp fn : ℕ, NLI4CT.evalCounts gold results = .ok (tp, fp, fn) ∧
      res.precision =
        (if tp + fp = 0 then (0 : ℚ) else (tp : ℚ) / ((tp : ℚ) + (fp : ℚ))) ∧
      res.f1 =
        (if res.precision + res.«recall» = 0 then (0 : ℚ)
         else 2 * (res.precision * res.«recall») / (res.precision + res.«recall»)) ∧
      0 ≤ res.f1 ∧ res.f1 ≤ 1 ∧
      0 ≤ res.precision ∧ res.precision ≤ 1 ∧
      0 ≤ res.«recall» ∧ res.«recall» ≤ 1 := by
  cases hc : NLI4CT.evalCounts gold results with
  | error e =>
    rw [evaluate_of_evalCounts_error gold results e hc] at h
    simp at h
  | ok t =>
    obtain ⟨tp, fp, fn⟩ := t
    by_cases hz : tp + fn = 0
    · rw [evaluate_zero_denominator gold results tp fp fn hc hz] at h
      simp at h
    · rw [evaluate_ok_form gold results tp fp fn hc hz] at h
      injection h with h2
      subst h2
      have hr := div_add_bounds tp fn hz
      have hp : 0 ≤ (if tp + fp = 0 then (0 : ℚ)
            else (tp : ℚ) / ((tp : ℚ) + (fp : ℚ))) ∧
          (if tp + fp = 0 then (0 : ℚ) else (tp : ℚ) / ((tp : ℚ) + (fp : ℚ))) ≤ 1 := by
        by_cases hzp : tp + fp = 0
        · simp [hzp]
        · rw [if_neg hzp]
          exact div_add_bounds tp fp hzp
      have hf := f1_formula_bounds _ _ hp.1 hp.2 hr.1 hr.2
      exact ⟨tp, fp, fn, rfl, rfl, rfl, hf.1, hf.2, hp.1, hp.2, hr.1, hr.2⟩

/-- Witness for C1 at a concrete input: one statement with gold primary
evidence `[0, 1]` and predicted `[0, 2]`, giving
`precision = recall = f1 = 1/2`. -/
theorem evaluate_ok_metrics_witness :
    ∃ tp fp fn : ℕ,
      NLI4CT.evalCounts [("a", ⟨"Single", [0, 1], none⟩)]
          [("a", ⟨"Single", [0, 2], none⟩)] = .ok (tp, fp, fn) ∧
      (NLI4CT.EvalResult.mk (1/2) (1/2) (1/2)).precision =
        (if tp + fp = 0 then (0 : ℚ) else (tp : ℚ) / ((tp : ℚ) + (fp : ℚ))) ∧
      (NLI4CT.EvalResult.mk (1/2) (1/2) (1/2)).f1 =
        (if (NLI4CT.EvalResult.mk (1/2) (1/2) (1/2)).precision +
              (NLI4CT.EvalResult.mk (1/2) (1/2) (1/2)).«recall» = 0 then (0 : ℚ)
         else 2 * ((NLI4CT.EvalResult.mk (1/2) (1/2) (1/2)).precision *
              (NLI4CT.EvalResult.mk (1/2) (1/2) (1/2)).«recall») /
            ((NLI4CT.EvalResult.mk (1/2) (1/2) (1/2)).precision +
              (NLI4CT.EvalResult.mk (1/2) (1/2) (1/2)).«recall»)) ∧
      0 ≤ (NLI4CT.EvalResult.mk (1/2) (1/2) (1/2)).f1 ∧
      (NLI4CT.EvalResult.mk (1/2) (1/2) (1/2)).f1 ≤ 1 ∧
      0 ≤ (NLI4CT.EvalResult.mk (1/2) (1/2) (1/2)).precision ∧
      (NLI4CT.EvalResult.mk (1/2) (1/2) (1/2)).precision ≤ 1 ∧
      0 ≤ (NLI4CT.EvalResult.mk (1/2) (1/2) (1/2)).«recall» ∧
      (NLI4CT.EvalResult.mk (1/2) (1/2) (1/2)).«recall» ≤ 1 :=
  evaluate_ok_metrics [("a", ⟨"Single", [0, 1], none⟩)]
    [("a", ⟨"Single", [0, 2], none⟩)] (NLI4CT.EvalResult.mk (1/2) (1/2) (1/2)) (by
      have hc : NLI4CT.evalCounts [("a", ⟨"Single", [0, 1], none⟩)]
          [("a", ⟨"Single", [0, 2], none⟩)] = .ok (1, 1, 1) := by decide
      rw [evaluate_ok_form _ _ 1 1 1 hc (by decide)]
      norm_num)

/-- C5 counterexample: a gold/result pair that is an exact match per statement
(the single statement has empty predicted and gold evidence, so the mutual
inclusion holds vacuously) on which `evaluate` raises `ZeroDivisionError`
instead of returning `precision = recall = f1 = 1.0`. -/
theorem exact_match_claim_counterexample :
    ExactEntry [("a", ⟨"Single", [], none⟩)] ("a", ⟨"Single", [], none⟩) ∧
    NLI4CT.evaluate [("a", ⟨"Single", [], none⟩)] [("a", ⟨"Single", [], none⟩)] =
      .error .zeroDivisionError := by
  constructor
  · refine ⟨⟨"Single", [], none⟩, rfl, ⟨by simp, by simp⟩, ?_⟩
    intro hcontra
    exact absurd hcontra (by decide)
  · rfl

/-- C5 amended: for every gold/result pair in which, per statement, every
predicted index is also a gold index and every gold index is also a predicted
index (exact match per statement, secondary included for Comparison-type
statements), and at least one processed statement contributes a nonempty
predicted evidence list in some compared category — a nonempty primary list,
or a nonempty secondary list on a statement whose gold record has
`Type = "Comparison"` — the evaluation returns
`precision = recall = f1 = 1.0`.  (When every compared predicted list is
empty the pooled counts are all zero and `evaluate` instead raises a
`ZeroDivisionError`-class error, which is all the counterexample forces
excluding.) -/
theorem evaluate_exact_match (gold results : StatementMap)
    (H : ∀ p ∈ results, ExactEntry gold p)
    (Hne : ∃ p ∈ results, p.2.Primary_evidence_index ≠ [] ∨
      (∃ g, List.lookup p.1 gold = some g ∧ g.rType = "Comparison" ∧
        ∃ rsec, p.2.Secondary_evidence_index = some rsec ∧ rsec ≠ [])) :
    NLI4CT.evaluate gold results = .ok { f1 := 1, precision := 1, «recall» := 1 } := by
  obtain ⟨GP, RP, GS, RS, hb, hl1, hl2, hz1, hz2, hmap, hsmem⟩ :=
    buildLists_exact gold results H
  have hcp := compare_exact_rows RP GP hl1 hz1
  have hcs := compare_exact_rows RS GS hl2 hz2
  have hcounts : NLI4CT.evalCounts gold results =
      .ok ((RP.map List.length).sum + (RS.map List.length).sum, 0, 0) := by
    simp [NLI4CT.evalCounts, hb, hcp, hcs]
  have htppos : (RP.map List.length).sum + (RS.map List.length).sum ≠ 0 := by
    obtain ⟨p, hp, hne⟩ := Hne
    intro h0
    rcases hne with hneP | ⟨g, hg, hcomp, rsec, hrsec, hneS⟩
    · have h1 : (RP.map List.length).sum = 0 := by omega
      have h2 : p.2.Primary_evidence_index.length ∈ RP.map List.length := by
        rw [hmap, List.map_map]
        exact List.mem_map.mpr ⟨p, hp, rfl⟩
      have h3 := (List.sum_eq_zero_iff.mp h1) _ h2
      exact hneP (List.eq_nil_of_length_eq_zero h3)
    · have h1 : (RS.map List.length).sum = 0 := by omega
      have h2 : rsec.length ∈ RS.map List.length :=
        List.mem_map_of_mem List.length (hsmem p hp g hg hcomp rsec hrsec)
      have h3 := (List.sum_eq_zero_iff.mp h1) _ h2
      exact hneS (List.eq_nil_of_length_eq_zero h3)
  rw [evaluate_ok_form gold results _ 0 0 hcounts (by omega)]
  have hne0 : (((RP.map List.length).sum + (RS.map List.length).sum : ℕ) : ℚ) ≠ 0 :=
    Nat.cast_ne_zero.mpr htppos
  have hdiv : (((RP.map List.length).sum + (RS.map List.length).sum : ℕ) : ℚ) /
      ((((RP.map List.length).sum + (RS.map List.length).sum : ℕ) : ℚ) + ((0 : ℕ) : ℚ)) = 1 := by
    rw [Nat.cast_zero, add_zero]
    exact div_self hne0
  simp only [htppos, hdiv, if_neg, Nat.add_zero]
  norm_num [htppos]

/-- Witness for the amended C5 at a concrete input exercising the
secondary-only case: one Comparison-type statement whose predicted and gold
primary lists are empty while the secondary lists both hold `[3]`, evaluating
to `precision = recall = f1 = 1` (the single true positive comes from the
secondary category). -/
theorem evaluate_exact_match_witness :
    NLI4CT.evaluate [("a", ⟨"Comparison", [], some [3]⟩)]
        [("a", ⟨"Comparison", [], some [3]⟩)] =
      .ok { f1 := 1, precision := 1, «recall» := 1 } :=
  evaluate_exact_match [("a", ⟨"Comparison", [], some [3]⟩)]
    [("a", ⟨"Comparison", [], some [3]⟩)]
    (by
      intro p hp
      simp only [List.mem_singleton] at hp
      subst hp
      exact ⟨⟨"Comparison", [], some [3]⟩, rfl, ⟨by simp, by simp⟩,
        fun _ => ⟨[3], [3], rfl, rfl, ⟨by decide, by decide⟩⟩⟩)
    ⟨("a", ⟨"Comparison", [], some [3]⟩), by simp,
      Or.inr ⟨⟨"Comparison", [], some [3]⟩, rfl, rfl, [3], rfl, by decide⟩⟩
